import Mathlib

/-!
Verification of the `espresso` ESP8266 AT-command driver (Rust).

We shallowly embed the driver's command catalog (`src/commands/requests.rs`),
its response types (`src/commands/responses.rs`, `src/types.rs`), the
unsolicited-notification framer (`EspUrcDetector::process` in `src/lib.rs`)
and the URC parser (`src/commands/urcs.rs`).

Modelling conventions:
* Rust `&str` values are modelled as `List Char`; raw byte buffers
  (`&[u8]`) as `List Nat` (each entry `< 256`).  Byte indices and char
  indices coincide on the ASCII inputs the protocol uses; slice starts in
  the source always sit directly after an ASCII literal whose match was
  checked first.
* Fallible Rust code is modelled in `RunResult`: `ok`/`err` mirror
  `Result<_, atat::Error>`, and `panic` marks the places where the source
  calls `.unwrap()`/`.expect()` on a failing value or overflows a
  fixed-capacity `heapless` container or indexes a slice out of range.
* Machine integers are `Nat` with explicit bounds where they matter
  (`usizeMax` for the `usize` of the 32-bit embedded target,
  255 for `u8`, 65535 for `u16`).
-/

namespace Espresso

/-- The error type of the `atat` crate as used by the driver
(`atat::Error::{InvalidResponse, Parse, ParseString}`). -/
inductive AtatError where
  | InvalidResponse
  | Parse
  | ParseString
deriving DecidableEq, Repr

/-- Outcome of running a fallible piece of Rust code: `ok`/`err` mirror
`Result`, and `panic` marks an `unwrap` failure, an out-of-range slice
index, or a fixed-capacity buffer overflow. -/
inductive RunResult (α : Type) where
  | ok : α → RunResult α
  | err : AtatError → RunResult α
  | panic : RunResult α
deriving DecidableEq, Repr

/-- Model of `usize::MAX` of the 32-bit embedded target the crate is written for. -/
def usizeMax : Nat := 4294967295

/-- Rust `char::is_whitespace` (the Unicode `White_Space` property). -/
def rustIsWhitespace (c : Char) : Bool :=
  [0x09, 0x0A, 0x0B, 0x0C, 0x0D, 0x20, 0x85, 0xA0, 0x1680,
   0x2000, 0x2001, 0x2002, 0x2003, 0x2004, 0x2005, 0x2006, 0x2007,
   0x2008, 0x2009, 0x200A, 0x2028, 0x2029, 0x202F, 0x205F, 0x3000].contains c.toNat

/-- Rust `str::trim`: drop whitespace from both ends. -/
def rustTrim (s : List Char) : List Char :=
  ((s.dropWhile rustIsWhitespace).reverse.dropWhile rustIsWhitespace).reverse

/-- Rust `str::starts_with(pat)` (`rustStartsWith s pat`). -/
def rustStartsWith : List Char → List Char → Bool
  | _, [] => true
  | [], _ :: _ => false
  | c :: s, p :: ps => p = c && rustStartsWith s ps

/-- Split a character list at every occurrence of `c` (the splitter used to
model `str::lines`); always returns at least one (possibly empty) part. -/
def splitOnChar (c : Char) : List Char → List (List Char)
  | [] => [[]]
  | x :: xs =>
    if x = c then [] :: splitOnChar c xs
    else
      match splitOnChar c xs with
      | [] => [[x]]
      | h :: t => (x :: h) :: t

/-- Strip one trailing `'\r'`, as Rust `str::lines` does on each line. -/
def stripCR (l : List Char) : List Char :=
  if l.getLast? = some '\r' then l.dropLast else l

/-- Rust `str::lines`: split on `'\n'`, drop a final empty piece (the final
line terminator is optional), and strip one trailing `'\r'` per line. -/
def rustLines (s : List Char) : List (List Char) :=
  let parts := splitOnChar '\n' s
  let parts := if parts.getLast? = some [] then parts.dropLast else parts
  parts.map stripCR

/-- ASCII decimal digit test. -/
def isDigitChar (c : Char) : Bool := '0' ≤ c && c ≤ '9'

/-- Numeric value of an ASCII digit. -/
def digitVal (c : Char) : Nat := c.toNat - '0'.toNat

/-- Accumulate decimal digits; `none` on the first non-digit. -/
def parseNatAux : List Char → Nat → Option Nat
  | [], acc => some acc
  | c :: cs, acc =>
    if isDigitChar c then parseNatAux cs (acc * 10 + digitVal c) else none

/-- Strip the optional leading `'+'` sign accepted by Rust's unsigned
integer `FromStr`. -/
def stripPlus (s : List Char) : List Char :=
  match s with
  | c :: rest => if c = '+' then rest else c :: rest
  | [] => []

/-- Rust `str::parse::<T>()` for an unsigned integer type with maximum
`max`: an optional leading `'+'`, then one or more decimal digits, and the
value must fit (`Err` on overflow). -/
def parseUInt (max : Nat) (s : List Char) : Option Nat :=
  match stripPlus s with
  | [] => none
  | digits =>
    match parseNatAux digits 0 with
    | none => none
    | some n => if n ≤ max then some n else none

/-- Rust `str::parse::<usize>()` on the 32-bit target. -/
def parseUsize (s : List Char) : Option Nat := parseUInt usizeMax s

/-- Rust `str::parse::<u8>()`. -/
def parseU8 (s : List Char) : Option Nat := parseUInt 255 s

/-- Rust `str::get(i..j)`: `some` slice when the range is in bounds. -/
def rustGet (s : List Char) (i j : Nat) : Option (List Char) :=
  if i ≤ j ∧ j ≤ s.length then some ((s.drop i).take (j - i)) else none

/-- Rust slice indexing `&s[i..j]`: panics when the range is out of
bounds. -/
def rustSliceRange (s : List Char) (i j : Nat) : RunResult (List Char) :=
  if i ≤ j ∧ j ≤ s.length then .ok ((s.drop i).take (j - i)) else .panic

/-- Model of `heapless::String::<cap>::from(&str)`: the `From` impl `push_str(..).unwrap()`s,
so an over-long source panics. -/
def heaplessStringFrom (cap : Nat) (s : List Char) : RunResult (List Char) :=
  if s.length ≤ cap then .ok s else .panic

/-- UTF-8 validation/decoding (the acceptance condition of Rust
`core::str::from_utf8`), with explicit fuel; each step consumes at least
one byte. -/
def utf8DecodeAux : Nat → List Nat → Option (List Char)
  | _, [] => some []
  | 0, _ :: _ => none
  | fuel + 1, b :: rest =>
    if b < 0x80 then
      (utf8DecodeAux fuel rest).map (Char.ofNat b :: ·)
    else if 0xC2 ≤ b ∧ b ≤ 0xDF then
      match rest with
      | b2 :: rest2 =>
        if 0x80 ≤ b2 ∧ b2 ≤ 0xBF then
          (utf8DecodeAux fuel rest2).map (Char.ofNat ((b - 0xC0) * 64 + (b2 - 0x80)) :: ·)
        else none
      | [] => none
    else if 0xE0 ≤ b ∧ b ≤ 0xEF then
      match rest with
      | b2 :: b3 :: rest3 =>
        let lo2 := if b = 0xE0 then 0xA0 else 0x80
        let hi2 := if b = 0xED then 0x9F else 0xBF
        if (lo2 ≤ b2 ∧ b2 ≤ hi2) ∧ (0x80 ≤ b3 ∧ b3 ≤ 0xBF) then
          (utf8DecodeAux fuel rest3).map
            (Char.ofNat ((b - 0xE0) * 4096 + (b2 - 0x80) * 64 + (b3 - 0x80)) :: ·)
        else none
      | _ => none
    else if 0xF0 ≤ b ∧ b ≤ 0xF4 then
      match rest with
      | b2 :: b3 :: b4 :: rest4 =>
        let lo2 := if b = 0xF0 then 0x90 else 0x80
        let hi2 := if b = 0xF4 then 0x8F else 0xBF
        if (lo2 ≤ b2 ∧ b2 ≤ hi2) ∧ (0x80 ≤ b3 ∧ b3 ≤ 0xBF) ∧ (0x80 ≤ b4 ∧ b4 ≤ 0xBF) then
          (utf8DecodeAux fuel rest4).map
            (Char.ofNat ((b - 0xF0) * 262144 + (b2 - 0x80) * 4096 + (b3 - 0x80) * 64 + (b4 - 0x80)) :: ·)
        else none
      | _ => none
    else none

/-- Rust `core::str::from_utf8`: `some` chars on valid UTF-8 input,
`none` on invalid input. -/
def utf8Decode (bytes : List Nat) : Option (List Char) :=
  utf8DecodeAux bytes.length bytes

/-! ## Shared driver types (`src/types.rs`, `src/commands/responses.rs`) -/

/-- Model of `types::WifiMode`. -/
inductive WifiMode where
  | Station
  | Ap
  | Both
deriving DecidableEq, Repr

/-- Model of `WifiMode::as_at_str`. -/
def WifiMode.as_at_str : WifiMode → List Char
  | .Station => "1".toList
  | .Ap => "2".toList
  | .Both => "3".toList

/-- Model of `types::ConnectionStatus`. -/
inductive ConnectionStatus where
  | ConnectedToAccessPoint
  | InTransmission
  | TransmissionEnded
  | Disconnected
  | Other (code : Nat)
deriving DecidableEq, Repr

/-- Model of `types::ConnectionId` (connection ids 0–4). -/
inductive ConnectionId where
  | Zero
  | One
  | Two
  | Three
  | Four
deriving DecidableEq, Repr

/-- Model of `ConnectionId::as_at_str`. -/
def ConnectionId.as_at_str : ConnectionId → List Char
  | .Zero => "0".toList
  | .One => "1".toList
  | .Two => "2".toList
  | .Three => "3".toList
  | .Four => "4".toList

/-- Modelled from the spec: the `TryFrom<&str>` conversion for
`ConnectionId` used by `NetworkData::from_urc` is not present under
`src/`; per the spec the identifier range 0–4 is enforced at
construction, so exactly the texts `"0"`–`"4"` convert and anything else
is rejected. -/
def ConnectionId.tryFrom (s : List Char) : Option ConnectionId :=
  if s = "0".toList then some .Zero
  else if s = "1".toList then some .One
  else if s = "2".toList then some .Two
  else if s = "3".toList then some .Three
  else if s = "4".toList then some .Four
  else none

/-- Model of `types::MultiplexingType`. -/
inductive MultiplexingType where
  | NonMultiplexed
  | Multiplexed (id : ConnectionId)
deriving DecidableEq, Repr

/-- Model of `types::Protocol`. -/
inductive Protocol where
  | Tcp
  | Udp
deriving DecidableEq, Repr

/-- Model of `Protocol::as_at_str`. -/
def Protocol.as_at_str : Protocol → List Char
  | .Tcp => "TCP".toList
  | .Udp => "UDP".toList

/-- Model of `no_std_net::Ipv4Addr` (four octets). -/
structure Ipv4Addr where
  a : Nat
  b : Nat
  c : Nat
  d : Nat
deriving DecidableEq, Repr

/-- Model of `responses::EmptyResponse`. -/
inductive EmptyResponse where
  | mk
deriving DecidableEq, Repr

/-- Model of `responses::FirmwareVersion` (three `heapless::String<32>` fields). -/
structure FirmwareVersion where
  at_version : List Char
  sdk_version : List Char
  compile_time : List Char
deriving DecidableEq, Repr

/-- Model of `responses::JoinResponse`. -/
structure JoinResponse where
  connected : Bool
  got_ip : Bool
deriving DecidableEq, Repr

/-- Model of `responses::LocalAddress` (`ip: Option<Ipv4Addr>`, `mac: String<17>`). -/
structure LocalAddress where
  ip : Option Ipv4Addr
  mac : List Char
deriving DecidableEq, Repr

/-! ## The URC detector (`EspUrcDetector::process`, `src/lib.rs`) -/

/-- Model of `atat::UrcMatcherResult`. -/
inductive UrcMatcherResult where
  | NotHandled
  | Incomplete
  | Complete (data : List Char)
deriving DecidableEq, Repr

/-- The literal URC signature `"+IPD,"`. -/
def ipdLit : List Char := "+IPD,".toList

/-- The colon search loop of `EspUrcDetector::process`:
`for i in 5..buf.len()-1 { if &buf[i..i+1] == ":" { end = i; break } }`,
starting from `end = 5`.  `fuel` counts the remaining iterations; when the
loop never hits a colon, `end` keeps its initial value `5`. -/
def findColonAux (buf : List Char) : Nat → Nat → Nat
  | 0, _ => 5
  | fuel + 1, i => if buf.get? i = some ':' then i else findColonAux buf fuel (i + 1)

/-- The value of `end` after the colon search loop. -/
def findColonEnd (buf : List Char) : Nat :=
  findColonAux buf (buf.length - 1 - 5) 5

/-- Model of `EspUrcDetector::process`.  The source mutates the buffer in place; we
return the matcher result together with the buffer contents afterwards
(unchanged except on `Complete`, which removes the consumed front). -/
def espUrcDetectorProcess (buf : List Char) : UrcMatcherResult × List Char :=
  if rustStartsWith buf ipdLit then
    let e := findColonEnd buf
    if e = 5 then (.Incomplete, buf)
    else
      match parseUsize ((buf.drop 5).take (e - 5)) with
      | none => (.Incomplete, buf)
      | some length =>
        let total := e + 1 + length
        if buf.length < total then (.Incomplete, buf)
        else (.Complete (buf.take total), buf.drop total)
  else (.NotHandled, buf)

/-! ## URC payload extraction (`src/commands/urcs.rs`) -/

/-- Model of `urcs::NetworkData`: `connection_id: Option<ConnectionId>`,
`data: Vec<u8, U2048>`. -/
structure NetworkData where
  connection_id : Option ConnectionId
  data : List Char
deriving DecidableEq, Repr

/-- Model of `urcs::EspUrc`. -/
inductive EspUrc where
  | NetworkData (nd : Espresso.NetworkData)
  | Other (bytes : List Char)
deriving DecidableEq, Repr

/-- Rust `str::trim_start_matches("+IPD,")`: repeatedly strip the
leading pattern (with fuel; each strip removes five characters). -/
def trimStartMatchesIPDAux : Nat → List Char → List Char
  | 0, s => s
  | fuel + 1, s =>
    if rustStartsWith s ipdLit then trimStartMatchesIPDAux fuel (s.drop 5) else s

/-- Model of `urc.trim_start_matches(Self::PREFIX)` with `PREFIX = "+IPD,"`. -/
def trimStartMatchesIPD (s : List Char) : List Char :=
  trimStartMatchesIPDAux s.length s

/-- Rust `str::find(':')`: index of the first colon. -/
def findColonIdx (s : List Char) : Option Nat :=
  s.findIdx? (· = ':')

/-- Model of `params.split(',').next().unwrap()`: everything before the first
comma (`split` always yields a first piece, so the `unwrap` cannot fail). -/
def splitFirstComma (s : List Char) : List Char :=
  s.takeWhile (· ≠ ',')

/-- Model of `NetworkData::from_urc`.  `Vec::from_iter` into `Vec<u8, U2048>`
panics when the payload exceeds the capacity 2048. -/
def NetworkData.from_urc (urc : List Char) : RunResult NetworkData :=
  if ¬ rustStartsWith urc ipdLit then .err .ParseString
  else
    let u := trimStartMatchesIPD urc
    match findColonIdx u with
    | none => .err .ParseString
    | some index =>
      let params := u.take index
      let data := u.drop index
      let commas := params.count ','
      if commas = 0 ∨ commas = 2 then
        if data.length ≤ 2048 then .ok ⟨none, data⟩ else .panic
      else if commas = 1 ∨ commas = 3 then
        match ConnectionId.tryFrom (splitFirstComma params) with
        | none => .err .ParseString
        | some cid => if data.length ≤ 2048 then .ok ⟨some cid, data⟩ else .panic
      else .err .ParseString

/-- Model of `<EspUrc as AtatUrc>::parse`. -/
def EspUrc.parse (urc : List Char) : RunResult EspUrc :=
  if rustStartsWith urc ipdLit then
    match NetworkData.from_urc urc with
    | .ok nd => .ok (.NetworkData nd)
    | .err e => .err e
    | .panic => .panic
  else if urc.length ≤ 2048 then .ok (.Other urc) else .panic

end Espresso

namespace Espresso

/-! ## Wire codec primitives (`numtoa`, capacity-checked buffers) -/

/-- Decimal digits of `n` (the `numtoa` rendering and the `{}` `Display`
format of an unsigned integer), with fuel. -/
def natDecimalAux : Nat → Nat → List Char
  | 0, _ => []
  | fuel + 1, n =>
    if n < 10 then [Char.ofNat (48 + n)]
    else natDecimalAux fuel (n / 10) ++ [Char.ofNat (48 + n % 10)]

/-- Decimal rendering of a natural number. -/
def natDecimal (n : Nat) : List Char := natDecimalAux (n + 1) n

/-- Building a `heapless::Vec<u8, cap>` through `write!(..).unwrap()` (or
`Vec::from_slice(..).unwrap()`): the write panics as soon as the
fixed capacity overflows. -/
def checkCap (cap : Nat) (s : List Char) : RunResult (List Char) :=
  if s.length ≤ cap then .ok s else .panic

/-! ## Command catalog (`src/commands/requests.rs`) -/

/-- Model of `At::as_bytes` (`CommandLen = U4`). -/
def At.as_bytes : List Char := "AT\r\n".toList

/-- Model of `At::parse` after the UTF-8 conversion: success iff the trimmed body
is empty. -/
def At.parseBody (resp : List Char) : RunResult EmptyResponse :=
  if ¬ (rustTrim resp).isEmpty then .err .InvalidResponse else .ok .mk

/-- Model of `At::parse` on raw response bytes: the source does
`core::str::from_utf8(resp?).unwrap()`, so invalid UTF-8 panics. -/
def At.parse (bytes : List Nat) : RunResult EmptyResponse :=
  match utf8Decode bytes with
  | none => .panic
  | some s => At.parseBody s

/-- Model of `GetFirmwareVersion::as_bytes` (`CommandLen = U8`). -/
def GetFirmwareVersion.as_bytes : List Char := "AT+GMR\r\n".toList

/-- The literal line markers of the firmware-version reply. -/
def atVersionLit : List Char := "AT version:".toList

/-- Second firmware line marker. -/
def sdkVersionLit : List Char := "SDK version:".toList

/-- Third firmware line marker. -/
def compileTimeLit : List Char := "compile time:".toList

/-- Model of `GetFirmwareVersion::parse` after the UTF-8 conversion: three
positional lines, each introduced by its literal marker; the remainders go
into `heapless::String<32>` fields (panicking above capacity 32). -/
def GetFirmwareVersion.parseBody (resp : List Char) : RunResult FirmwareVersion :=
  match rustLines resp with
  | l1 :: l2 :: l3 :: _ =>
    if ¬ rustStartsWith l1 atVersionLit then .err .Parse
    else if ¬ rustStartsWith l2 sdkVersionLit then .err .Parse
    else if ¬ rustStartsWith l3 compileTimeLit then .err .Parse
    else
      match heaplessStringFrom 32 (l1.drop 11) with
      | .ok av =>
        match heaplessStringFrom 32 (l2.drop 12) with
        | .ok sv =>
          match heaplessStringFrom 32 (l3.drop 13) with
          | .ok ct => .ok ⟨av, sv, ct⟩
          | _ => .panic
        | _ => .panic
      | _ => .panic
  | _ => .err .Parse

/-- Model of `GetFirmwareVersion::parse` on raw bytes (UTF-8 `unwrap` first). -/
def GetFirmwareVersion.parse (bytes : List Nat) : RunResult FirmwareVersion :=
  match utf8Decode bytes with
  | none => .panic
  | some s => GetFirmwareVersion.parseBody s

/-- Model of `Restart::as_bytes` (`CommandLen = U8`). -/
def Restart.as_bytes : List Char := "AT+RST\r\n".toList

/-- Model of `Restart::parse` after the UTF-8 conversion. -/
def Restart.parseBody (resp : List Char) : RunResult EmptyResponse :=
  if ¬ (rustTrim resp).isEmpty then .err .InvalidResponse else .ok .mk

/-- Model of `GetCurrentWifiMode::as_bytes` (`CommandLen = U16`). -/
def GetCurrentWifiMode.as_bytes : List Char := "AT+CWMODE_CUR?\r\n".toList

/-- The reply marker of `GetCurrentWifiMode`. -/
def cwmodeCurLit : List Char := "+CWMODE_CUR:".toList

/-- The reply marker of `GetDefaultWifiMode`. -/
def cwmodeDefLit : List Char := "+CWMODE_DEF:".toList

/-- Model of `GetCurrentWifiMode::parse` after the UTF-8 conversion. -/
def GetCurrentWifiMode.parseBody (resp : List Char) : RunResult WifiMode :=
  if ¬ rustStartsWith resp cwmodeCurLit then .err .InvalidResponse
  else
    match rustGet resp 12 13 with
    | some s =>
      if s = "1".toList then .ok .Station
      else if s = "2".toList then .ok .Ap
      else if s = "3".toList then .ok .Both
      else .err .InvalidResponse
    | none => .err .InvalidResponse

/-- Model of `GetDefaultWifiMode::as_bytes` (`CommandLen = U16`). -/
def GetDefaultWifiMode.as_bytes : List Char := "AT+CWMODE_DEF?\r\n".toList

/-- Model of `GetDefaultWifiMode::parse` after the UTF-8 conversion. -/
def GetDefaultWifiMode.parseBody (resp : List Char) : RunResult WifiMode :=
  if ¬ rustStartsWith resp cwmodeDefLit then .err .InvalidResponse
  else
    match rustGet resp 12 13 with
    | some s =>
      if s = "1".toList then .ok .Station
      else if s = "2".toList then .ok .Ap
      else if s = "3".toList then .ok .Both
      else .err .InvalidResponse
    | none => .err .InvalidResponse

/-- Model of `SetWifiMode::as_bytes` (`CommandLen = U17`):
`write!("AT+CWMODE_{}={}\r\n", persist_str, mode.as_at_str())`. -/
def SetWifiMode.as_bytes (mode : WifiMode) (persist : Bool) : RunResult (List Char) :=
  checkCap 17 ("AT+CWMODE_".toList
    ++ (if persist then "DEF".toList else "CUR".toList)
    ++ "=".toList ++ mode.as_at_str ++ "\r\n".toList)

/-- Model of `SetWifiMode::parse` after the UTF-8 conversion. -/
def SetWifiMode.parseBody (resp : List Char) : RunResult EmptyResponse :=
  if ¬ (rustTrim resp).isEmpty then .err .InvalidResponse else .ok .mk

/-- Model of `ListAccessPoints::as_bytes` (`CommandLen = U10`). -/
def ListAccessPoints.as_bytes : List Char := "AT+CWLAP\r\n".toList

/-- Model of `ListAccessPoints::parse`: the source ignores the response entirely
and always succeeds. -/
def ListAccessPoints.parse (_bytes : List Nat) : RunResult EmptyResponse := .ok .mk

/-- Model of `JoinAccessPoint::as_bytes` (`CommandLen = U116`):
`write!("AT+CWJAP_{}=\"{}\",\"{}\"\r\n", persist_str, ssid, psk)` — the
ssid and psk are embedded verbatim with no quoting (the source carries a
`TODO: Proper quoting`). -/
def JoinAccessPoint.as_bytes (ssid psk : List Char) (persist : Bool) :
    RunResult (List Char) :=
  checkCap 116 ("AT+CWJAP_".toList
    ++ (if persist then "DEF".toList else "CUR".toList)
    ++ "=\"".toList ++ ssid ++ "\",\"".toList ++ psk ++ "\"\r\n".toList)

/-- The per-line state step of `JoinAccessPoint::parse`: three literal
markers drive the two booleans, all other lines are discarded. -/
def joinStep (r : JoinResponse) (line : List Char) : JoinResponse :=
  if line = "WIFI DISCONNECTED".toList then { r with connected := false }
  else if line = "WIFI CONNECTED".toList then { r with connected := true }
  else if line = "WIFI GOT IP".toList then { r with got_ip := true }
  else r

/-- Model of `JoinAccessPoint::parse` after the UTF-8 conversion: fold the lines,
starting from `{connected: false, got_ip: false}`; always succeeds. -/
def JoinAccessPoint.parseBody (resp : List Char) : RunResult JoinResponse :=
  .ok ((rustLines resp).foldl joinStep ⟨false, false⟩)

/-- Model of `GetConnectionStatus::as_bytes` (`CommandLen = U14`). -/
def GetConnectionStatus.as_bytes : List Char := "AT+CIPSTATUS\r\n".toList

/-- The reply marker of `GetConnectionStatus`. -/
def statusLit : List Char := "STATUS:".toList

/-- Model of `GetConnectionStatus::parse` after the UTF-8 conversion: codes 2–5 map
to the named statuses, any other parsable `u8` code is kept as
`Other(code)`. -/
def GetConnectionStatus.parseBody (resp : List Char) : RunResult ConnectionStatus :=
  if ¬ rustStartsWith resp statusLit then .err .InvalidResponse
  else
    match rustGet resp 7 8 with
    | some s =>
      if s = "2".toList then .ok .ConnectedToAccessPoint
      else if s = "3".toList then .ok .InTransmission
      else if s = "4".toList then .ok .TransmissionEnded
      else if s = "5".toList then .ok .Disconnected
      else
        match parseU8 s with
        | some code => .ok (.Other code)
        | none => .err .Parse
    | none => .err .InvalidResponse

/-- Model of `GetLocalAddress::as_bytes` (`CommandLen = U10`). -/
def GetLocalAddress.as_bytes : List Char := "AT+CIFSR\r\n".toList

/-- The IP line marker of the `AT+CIFSR` reply. -/
def staipLit : List Char := "+CIFSR:STAIP,".toList

/-- The MAC line marker of the `AT+CIFSR` reply. -/
def stamacLit : List Char := "+CIFSR:STAMAC,".toList

/-- One decimal octet of a dotted-quad address: digits only, value at most
255, no leading zeros (the `no_std_net`/`core::net` address grammar). -/
def parseOctet (s : List Char) : Option Nat :=
  match s with
  | [] => none
  | _ =>
    if s.all isDigitChar then
      if 1 < s.length ∧ s.head? = some '0' then none
      else
        match parseNatAux s 0 with
        | some n => if n ≤ 255 then some n else none
        | none => none
    else none

/-- Model of `Ipv4Addr::from_str` of the `no_std_net` dependency: four dot-separated
decimal octets. -/
def parseIpv4 (s : List Char) : Option Ipv4Addr :=
  match (splitOnChar '.' s).map parseOctet with
  | [some a, some b, some c, some d] => some ⟨a, b, c, d⟩
  | _ => none

/-- The line loop of `GetLocalAddress::parse`: an IP line re-binds `ip`
(the literal `"0.0.0.0"` meaning "no address"), a MAC line re-binds `mac`
to the seventeen characters `line[15..32]`, other lines are skipped; an
unparsable IP propagates `Error::Parse`, out-of-range slices panic. -/
def localAddrLoop :
    List (List Char) → Option (List Char) → Option Ipv4Addr →
    RunResult (Option (List Char) × Option Ipv4Addr)
  | [], mac, ip => .ok (mac, ip)
  | line :: rest, mac, ip =>
    if rustStartsWith line staipLit then
      match rustSliceRange line 14 (line.length - 1) with
      | .ok ipRaw =>
        if ipRaw = "0.0.0.0".toList then localAddrLoop rest mac none
        else
          match parseIpv4 ipRaw with
          | some addr => localAddrLoop rest mac (some addr)
          | none => .err .Parse
      | _ => .panic
    else if rustStartsWith line stamacLit then
      match rustSliceRange line 15 32 with
      | .ok m =>
        match heaplessStringFrom 17 m with
        | .ok m17 => localAddrLoop rest (some m17) ip
        | _ => .panic
      | _ => .panic
    else localAddrLoop rest mac ip

/-- Model of `GetLocalAddress::parse` after the UTF-8 conversion: scan all lines,
then `mac.ok_or(Error::Parse)?`. -/
def GetLocalAddress.parseBody (resp : List Char) : RunResult LocalAddress :=
  match localAddrLoop (rustLines resp) none none with
  | .ok (mac, ip) =>
    match mac with
    | some m => .ok ⟨ip, m⟩
    | none => .err .Parse
  | .err e => .err e
  | .panic => .panic

/-- The buffer contents written by `EstablishConnection::as_bytes` before
the capacity check:
`AT+CIPSTART=[<id>,]"<proto>","<a>.<b>.<c>.<d>",<port>\r\n`. -/
def establishConnectionRender (mux : MultiplexingType) (protocol : Protocol)
    (addr : Ipv4Addr) (port : Nat) : List Char :=
  "AT+CIPSTART=".toList
  ++ (match mux with
      | .Multiplexed id => id.as_at_str ++ ",".toList
      | .NonMultiplexed => [])
  ++ "\"".toList ++ protocol.as_at_str ++ "\",".toList
  ++ "\"".toList ++ natDecimal addr.a ++ ".".toList ++ natDecimal addr.b
  ++ ".".toList ++ natDecimal addr.c ++ ".".toList ++ natDecimal addr.d
  ++ "\",".toList ++ natDecimal port
  ++ "\r\n".toList

/-- Model of `EstablishConnection::as_bytes` (`CommandLen = U42`): the `write!`
calls `unwrap`, so exceeding the declared capacity 42 panics. -/
def EstablishConnection.as_bytes (mux : MultiplexingType) (protocol : Protocol)
    (addr : Ipv4Addr) (port : Nat) : RunResult (List Char) :=
  checkCap 42 (establishConnectionRender mux protocol addr port)

/-- Model of `EstablishConnection::parse`: ignores the response, always succeeds. -/
def EstablishConnection.parse (_bytes : List Nat) : RunResult EmptyResponse := .ok .mk

/-- Model of `PrepareSendData::as_bytes` (`CommandLen = U20`):
`AT+CIPSEND=[<id>,]<length>\r\n`. -/
def PrepareSendData.as_bytes (mux : MultiplexingType) (length : Nat) :
    RunResult (List Char) :=
  checkCap 20 ("AT+CIPSEND=".toList
    ++ (match mux with
        | .Multiplexed id => id.as_at_str ++ ",".toList
        | .NonMultiplexed => [])
    ++ natDecimal length ++ "\r\n".toList)

/-- Model of `PrepareSendData::parse`: ignores the response, always succeeds. -/
def PrepareSendData.parse (_bytes : List Nat) : RunResult EmptyResponse := .ok .mk

/-- Model of `SendData::as_bytes` (`CommandLen = L`):
`Vec::from_slice(data.as_bytes()).unwrap()`. -/
def SendData.as_bytes (L : Nat) (data : List Char) : RunResult (List Char) :=
  checkCap L data

/-- Model of `SendData::parse`: ignores the response, always succeeds. -/
def SendData.parse (_bytes : List Nat) : RunResult EmptyResponse := .ok .mk

/-- Model of `CloseConnection::as_bytes` (`CommandLen = U15`):
`AT+CIPCLOSE[=<id>]\r\n`. -/
def CloseConnection.as_bytes (mux : MultiplexingType) : RunResult (List Char) :=
  checkCap 15 ("AT+CIPCLOSE".toList
    ++ (match mux with
        | .Multiplexed id => "=".toList ++ id.as_at_str
        | .NonMultiplexed => [])
    ++ "\r\n".toList)

/-- Model of `CloseConnection::parse`: ignores the response, always succeeds. -/
def CloseConnection.parse (_bytes : List Nat) : RunResult EmptyResponse := .ok .mk

end Espresso

namespace Espresso

/-! ## Claim theorems -/

/-- C1.  Framer conformance on the reference inputs, evaluated on the
code: feeding `"+IPD,5:hello"` does yield `Complete` with consumed length
12 (the whole buffer is consumed, leaving an empty remainder), and the
split feed `"+IPD,5:he"` is `Incomplete` with the buffer unchanged, and
`"+CUSTOM:x"` is `NotHandled`; but the extracted network-data message
keeps the colon in its payload (`":hello"`, six bytes, instead of the
claimed `"hello"`), and the multiplexed buffer `"+IPD,0,5:hello"` never
completes: the detector feeds `"0,5"` to the `usize` parser, which fails,
so the result is `Incomplete` rather than `Complete` with connection
id 0. -/
theorem c1_framer_reference_inputs :
    espUrcDetectorProcess "+IPD,5:hello".toList
      = (.Complete "+IPD,5:hello".toList, []) ∧
    NetworkData.from_urc "+IPD,5:hello".toList = .ok ⟨none, ":hello".toList⟩ ∧
    EspUrc.parse "+IPD,5:hello".toList
      = .ok (.NetworkData ⟨none, ":hello".toList⟩) ∧
    ":hello".toList ≠ "hello".toList ∧
    espUrcDetectorProcess "+IPD,5:he".toList = (.Incomplete, "+IPD,5:he".toList) ∧
    espUrcDetectorProcess "+IPD,0,5:hello".toList
      = (.Incomplete, "+IPD,0,5:hello".toList) ∧
    NetworkData.from_urc "+IPD,0,5:hello".toList
      = .ok ⟨some .Zero, ":hello".toList⟩ ∧
    espUrcDetectorProcess "+CUSTOM:x".toList = (.NotHandled, "+CUSTOM:x".toList) := by
  decide

/-- C2.  Encoding capacity, evaluated on the code: for the admissible
input `EstablishConnection::tcp(NonMultiplexed, 255.255.255.255:65535)`
the rendered wire form is the 43-byte
`AT+CIPSTART="TCP","255.255.255.255",65535\r\n`, which exceeds the
declared `CommandLen = U42`, so `as_bytes` panics (the `write!` result is
`unwrap`ped); with a multiplexed id the worst case is 45 bytes. -/
theorem c2_establish_connection_overflows :
    establishConnectionRender .NonMultiplexed .Tcp ⟨255, 255, 255, 255⟩ 65535
      = "AT+CIPSTART=\"TCP\",\"255.255.255.255\",65535\r\n".toList ∧
    (establishConnectionRender .NonMultiplexed .Tcp ⟨255, 255, 255, 255⟩ 65535).length = 43 ∧
    EstablishConnection.as_bytes .NonMultiplexed .Tcp ⟨255, 255, 255, 255⟩ 65535 = .panic ∧
    (establishConnectionRender (.Multiplexed .Four) .Tcp ⟨255, 255, 255, 255⟩ 65535).length = 45 ∧
    EstablishConnection.as_bytes (.Multiplexed .Four) .Tcp ⟨255, 255, 255, 255⟩ 65535 = .panic := by
  decide

/-- C3.  Decoder totality, evaluated on the code: the single byte `0xFF`
is not valid UTF-8, and every decoder starts with
`core::str::from_utf8(resp?).unwrap()`, so the decoders panic on it
instead of returning a typed decode error. -/
theorem c3_parse_panics_on_invalid_utf8 :
    At.parse [255] = .panic ∧ GetFirmwareVersion.parse [255] = .panic := by
  decide

/-- C4 counterexample.  For the buffer `"+IPD,ab:x"` the colon is present
and the content before it (`"ab"`) is not a decimal length, yet the
detector returns `Incomplete` with the buffer untouched — not the hard
parse error the claim requires (the matcher result type has no error
alternative at all). -/
theorem c4_nondigit_header_is_incomplete_cex :
    espUrcDetectorProcess "+IPD,ab:x".toList = (.Incomplete, "+IPD,ab:x".toList) := by
  decide

end Espresso

namespace Espresso

/-- Helper: the colon search loop leaves its initial value 5 when the
buffer holds no colon at all. -/
lemma findColonAux_eq_five (buf : List Char) (h : ':' ∉ buf) :
    ∀ fuel i, findColonAux buf fuel i = 5 := by
  intro fuel
  induction fuel with
  | zero => intro i; rfl
  | succ n ih =>
    intro i
    simp only [findColonAux]
    split
    · next hc => exact absurd (List.get?_mem hc) h
    · exact ih (i + 1)

/-- C4 (amended).  On a buffer beginning with `"+IPD,"`, the detector
returns `Incomplete` while no colon has arrived, and it also returns
`Incomplete` — not a hard parse error — when the colon is present but the
text before it does not parse as a decimal length (the matcher result
type has no error alternative); hard parse errors arise only later, in
`NetworkData::from_urc`, for completed frames whose header has an
unrecognized comma count. -/
theorem c4_malformed_length_is_incomplete (buf : List Char)
    (hp : rustStartsWith buf ipdLit = true) :
    (':' ∉ buf → espUrcDetectorProcess buf = (.Incomplete, buf)) ∧
    (∀ e, findColonEnd buf = e → e ≠ 5 →
      parseUsize ((buf.drop 5).take (e - 5)) = none →
      espUrcDetectorProcess buf = (.Incomplete, buf)) ∧
    NetworkData.from_urc "+IPD,1,2,3,4,5:x".toList = .err .ParseString := by
  refine ⟨?_, ?_, by decide⟩
  · intro h
    have he : findColonEnd buf = 5 :=
      findColonAux_eq_five buf h (buf.length - 1 - 5) 5
    simp [espUrcDetectorProcess, hp, he]
  · intro e he hne hparse
    simp [espUrcDetectorProcess, hp, he, hne, hparse]

/-- Witness for C4 (amended): the colon-free buffer `"+IPD,xy"` is
classified `Incomplete` and left untouched. -/
theorem c4_malformed_length_witness :
    espUrcDetectorProcess "+IPD,xy".toList = (.Incomplete, "+IPD,xy".toList) :=
  (c4_malformed_length_is_incomplete "+IPD,xy".toList (by decide)).1 (by decide)

/-- Helper: the shared trimmed-empty response check of `At::parse`,
`Restart::parse` and `SetWifiMode::parse` succeeds exactly on
all-whitespace bodies. -/
lemma emptyBody_ok_iff (s : List Char) :
    (if ¬ (rustTrim s).isEmpty then (.err .InvalidResponse : RunResult EmptyResponse)
     else .ok .mk) = .ok .mk ↔ rustTrim s = [] := by
  by_cases h : (rustTrim s).isEmpty
  · simp [h, List.isEmpty_iff.mp h]
  · have : rustTrim s ≠ [] := fun hnil => h (by simp [hnil])
    simp [h, this]

/-- Helper: the shared trimmed-empty response check rejects a body with
leftover content as `InvalidResponse`. -/
lemma emptyBody_err (s : List Char) (h : rustTrim s ≠ []) :
    (if ¬ (rustTrim s).isEmpty then (.err .InvalidResponse : RunResult EmptyResponse)
     else .ok .mk) = .err .InvalidResponse := by
  have hb : ¬ (rustTrim s).isEmpty = true := by
    intro hh
    exact h (List.isEmpty_iff.mp hh)
  simp [hb]

/-- C5 (amended).  The trimmed-empty success policy holds for `At`,
`Restart` and `SetWifiMode` (success iff the trimmed body is empty,
`InvalidResponse` otherwise), while `ListAccessPoints`,
`EstablishConnection`, `PrepareSendData`, `SendData` and
`CloseConnection` ignore the response entirely and succeed on every
input. -/
theorem c5_empty_body_policy_amended (s : List Char) (bytes : List Nat) :
    (At.parseBody s = .ok .mk ↔ rustTrim s = []) ∧
    (rustTrim s ≠ [] → At.parseBody s = .err .InvalidResponse) ∧
    (Restart.parseBody s = .ok .mk ↔ rustTrim s = []) ∧
    (rustTrim s ≠ [] → Restart.parseBody s = .err .InvalidResponse) ∧
    (SetWifiMode.parseBody s = .ok .mk ↔ rustTrim s = []) ∧
    (rustTrim s ≠ [] → SetWifiMode.parseBody s = .err .InvalidResponse) ∧
    ListAccessPoints.parse bytes = .ok .mk ∧
    EstablishConnection.parse bytes = .ok .mk ∧
    PrepareSendData.parse bytes = .ok .mk ∧
    SendData.parse bytes = .ok .mk ∧
    CloseConnection.parse bytes = .ok .mk :=
  ⟨emptyBody_ok_iff s, emptyBody_err s, emptyBody_ok_iff s, emptyBody_err s,
   emptyBody_ok_iff s, emptyBody_err s, rfl, rfl, rfl, rfl, rfl⟩

/-- Witness for C5 (amended): the non-whitespace body `" x"` is rejected
by `At::parse` as `InvalidResponse`. -/
theorem c5_empty_body_witness :
    At.parseBody " x".toList = .err .InvalidResponse :=
  (c5_empty_body_policy_amended " x".toList []).2.1 (by decide)

/-- C5 counterexample.  The response body `"x"` (byte 120) contains
non-whitespace content, yet `EstablishConnection::parse` succeeds with
`EmptyResponse` instead of returning the `InvalidResponse` error the
claim requires. -/
theorem c5_always_ok_cex :
    EstablishConnection.parse [120] = .ok .mk ∧
    (RunResult.ok EmptyResponse.mk ≠ (.err .InvalidResponse : RunResult EmptyResponse)) := by
  decide

end Espresso

namespace Espresso

/-- Helper: a string always starts with its own leading part. -/
lemma rustStartsWith_append_self (p t : List Char) :
    rustStartsWith (p ++ t) p = true := by
  induction p with
  | nil => cases t <;> rfl
  | cons c cs ih => simp [rustStartsWith, ih]

/-- Helper: a single ASCII digit parses as a `u8` to its value. -/
lemma parseU8_digit (c : Char) (hd : isDigitChar c = true) :
    parseU8 [c] = some (digitVal c) := by
  have hb : 48 ≤ c.toNat ∧ c.toNat ≤ 57 := by
    simpa [isDigitChar, Bool.and_eq_true, decide_eq_true_eq] using hd
  have hplus : ¬ c = '+' := by
    intro h
    subst h
    exact absurd hd (by decide)
  have hv : digitVal c ≤ 255 := by
    unfold digitVal
    omega
  simp [parseU8, parseUInt, stripPlus, hplus, parseNatAux, hd, hv]

/-- Helper: a single non-digit character does not parse as a `u8`. -/
lemma parseU8_nondigit (c : Char) (hd : isDigitChar c = false) :
    parseU8 [c] = none := by
  by_cases hplus : c = '+'
  · subst hplus
    decide
  · simp [parseU8, parseUInt, stripPlus, hplus, parseNatAux, hd]

/-- Helper: reading one character right after a twelve-character marker. -/
lemma rustGet_after12 (p t : List Char) (c : Char) (hp : p.length = 12) :
    rustGet (p ++ c :: t) 12 13 = some [c] := by
  unfold rustGet
  rw [if_pos]
  · have hd : (p ++ c :: t).drop 12 = c :: t := by
      rw [← hp, List.drop_left]
    rw [hd]
    rfl
  · refine ⟨by omega, ?_⟩
    simp only [List.length_append, List.length_cons, hp]
    omega

/-- Helper: reading one character right after a seven-character marker. -/
lemma rustGet_after7 (p t : List Char) (c : Char) (hp : p.length = 7) :
    rustGet (p ++ c :: t) 7 8 = some [c] := by
  unfold rustGet
  rw [if_pos]
  · have hd : (p ++ c :: t).drop 7 = c :: t := by
      rw [← hp, List.drop_left]
    rw [hd]
    rfl
  · refine ⟨by omega, ?_⟩
    simp only [List.length_append, List.length_cons, hp]
    omega

/-- C6.  Enumerated-value decoding: with the literal marker
`"+CWMODE_CUR:"` (resp. `"+CWMODE_DEF:"`) in place, the character that
follows maps 1 ↦ Station, 2 ↦ Ap, 3 ↦ Both and anything else to an
error; with the marker `"STATUS:"` in place, 2–5 map to the named
connection statuses while every other decimal digit is preserved as
`Other(code)` (and a non-digit is an error). -/
theorem c6_enumerated_value_decoding (c : Char) (rest : List Char) :
    (GetCurrentWifiMode.parseBody (cwmodeCurLit ++ c :: rest) =
      if c = '1' then .ok .Station
      else if c = '2' then .ok .Ap
      else if c = '3' then .ok .Both
      else .err .InvalidResponse) ∧
    (GetDefaultWifiMode.parseBody (cwmodeDefLit ++ c :: rest) =
      if c = '1' then .ok .Station
      else if c = '2' then .ok .Ap
      else if c = '3' then .ok .Both
      else .err .InvalidResponse) ∧
    (GetConnectionStatus.parseBody (statusLit ++ c :: rest) =
      if c = '2' then .ok .ConnectedToAccessPoint
      else if c = '3' then .ok .InTransmission
      else if c = '4' then .ok .TransmissionEnded
      else if c = '5' then .ok .Disconnected
      else if isDigitChar c then .ok (.Other (digitVal c))
      else .err .Parse) := by
  refine ⟨?_, ?_, ?_⟩
  · have hsw := rustStartsWith_append_self cwmodeCurLit (c :: rest)
    have hget := rustGet_after12 cwmodeCurLit rest c rfl
    simp only [GetCurrentWifiMode.parseBody, hsw, Bool.true_eq_false,
      not_true_eq_false, if_false, hget,
      show "1".toList = ['1'] from rfl, show "2".toList = ['2'] from rfl,
      show "3".toList = ['3'] from rfl, List.cons.injEq, and_true]
  · have hsw := rustStartsWith_append_self cwmodeDefLit (c :: rest)
    have hget := rustGet_after12 cwmodeDefLit rest c rfl
    simp only [GetDefaultWifiMode.parseBody, hsw, Bool.true_eq_false,
      not_true_eq_false, if_false, hget,
      show "1".toList = ['1'] from rfl, show "2".toList = ['2'] from rfl,
      show "3".toList = ['3'] from rfl, List.cons.injEq, and_true]
  · have hsw := rustStartsWith_append_self statusLit (c :: rest)
    have hget := rustGet_after7 statusLit rest c rfl
    simp only [GetConnectionStatus.parseBody, hsw, Bool.true_eq_false,
      not_true_eq_false, if_false, hget,
      show "2".toList = ['2'] from rfl, show "3".toList = ['3'] from rfl,
      show "4".toList = ['4'] from rfl, show "5".toList = ['5'] from rfl,
      List.cons.injEq, and_true]
    split_ifs with h2 h3 h4 h5 hd <;>
      first
        | rfl
        | rw [parseU8_digit c hd]
        | rw [parseU8_nondigit c (by simpa using hd)]

end Espresso

namespace Espresso

/-- Helper: splitting a list that does not contain the splitter char. -/
lemma splitOnChar_of_not_mem (c : Char) (xs : List Char) (h : c ∉ xs) :
    splitOnChar c xs = [xs] := by
  induction xs with
  | nil => rfl
  | cons x xs ih =>
    have hx : ¬ x = c := by
      intro he
      exact h (he ▸ List.mem_cons_self x xs)
    have h' : c ∉ xs := fun hm => h (List.mem_cons_of_mem x hm)
    simp [splitOnChar, hx, ih h']

/-- Helper: splitting at the first occurrence of the splitter char. -/
lemma splitOnChar_append (c : Char) (xs ys : List Char) (h : c ∉ xs) :
    splitOnChar c (xs ++ c :: ys) = xs :: splitOnChar c ys := by
  induction xs with
  | nil => simp [splitOnChar]
  | cons x xs ih =>
    have hx : ¬ x = c := by
      intro he
      exact h (he ▸ List.mem_cons_self x xs)
    have h' : c ∉ xs := fun hm => h (List.mem_cons_of_mem x hm)
    simp [splitOnChar, hx, ih h']

/-- Helper: a split is never the empty list of parts. -/
lemma splitOnChar_ne_nil (c : Char) (s : List Char) : splitOnChar c s ≠ [] := by
  cases s with
  | nil => simp [splitOnChar]
  | cons x xs =>
    by_cases hx : x = c
    · simp [splitOnChar, hx]
    · cases hsp : splitOnChar c xs <;> simp [splitOnChar, hx, hsp]

/-- Helper: stripping the carriage return a crlf line ending leaves. -/
lemma stripCR_concat (A : List Char) : stripCR (A ++ ['\r']) = A := by
  simp [stripCR, List.getLast?_concat, List.dropLast_concat]

/-- Helper: a line that does not end in a carriage return is untouched. -/
lemma stripCR_no_cr (B : List Char) (h : B.getLast? ≠ some '\r') : stripCR B = B := by
  simp [stripCR, h]

/-- Helper: a text without newlines is a single line. -/
lemma rustLines_single (A : List Char) (h1 : '\n' ∉ A) (h2 : A ≠ [])
    (h3 : A.getLast? ≠ some '\r') : rustLines A = [A] := by
  unfold rustLines
  rw [splitOnChar_of_not_mem '\n' A h1]
  simp [h2, stripCR_no_cr A h3]

/-- Helper: peeling one crlf-terminated line off the front of a text. -/
lemma rustLines_crlf_cons (A R : List Char) (h1 : '\n' ∉ A) :
    rustLines (A ++ '\r' :: '\n' :: R) = A :: rustLines R := by
  have hA : '\n' ∉ A ++ ['\r'] := by
    intro hm
    rcases List.mem_append.mp hm with hm | hm
    · exact h1 hm
    · simp at hm
  have hassoc : A ++ '\r' :: '\n' :: R = (A ++ ['\r']) ++ '\n' :: R := by simp
  unfold rustLines
  rw [hassoc, splitOnChar_append '\n' (A ++ ['\r']) R hA]
  cases hsp : splitOnChar '\n' R with
  | nil => exact absurd hsp (splitOnChar_ne_nil '\n' R)
  | cons p ps =>
    by_cases hl : (p :: ps).getLast? = some ([] : List Char)
    · simp [List.getLast?_cons_cons, hl, List.dropLast_cons₂, stripCR_concat]
    · simp [List.getLast?_cons_cons, hl, stripCR_concat]

/-- C8.  Join-access-point decoding: the parser always succeeds, folding
the lines in order from `{connected: false, got_ip: false}`; the line
`"WIFI DISCONNECTED"` forces `connected := false` (retracting an earlier
`"WIFI CONNECTED"`), `"WIFI CONNECTED"` forces `connected := true`,
`"WIFI GOT IP"` forces `got_ip := true`, and every other line leaves the
state unchanged; in particular the two reference responses decode to
`{true, true}` and `{false, false}`. -/
theorem c8_join_access_point_fold (s : List Char) :
    (JoinAccessPoint.parseBody s = .ok ((rustLines s).foldl joinStep ⟨false, false⟩)) ∧
    (∀ r : JoinResponse, joinStep r "WIFI DISCONNECTED".toList = ⟨false, r.got_ip⟩) ∧
    (∀ r : JoinResponse, joinStep r "WIFI CONNECTED".toList = ⟨true, r.got_ip⟩) ∧
    (∀ r : JoinResponse, joinStep r "WIFI GOT IP".toList = ⟨r.connected, true⟩) ∧
    (∀ (r : JoinResponse) (line : List Char),
      line ≠ "WIFI DISCONNECTED".toList → line ≠ "WIFI CONNECTED".toList →
      line ≠ "WIFI GOT IP".toList → joinStep r line = r) ∧
    JoinAccessPoint.parseBody "WIFI CONNECTED\r\nWIFI GOT IP".toList = .ok ⟨true, true⟩ ∧
    JoinAccessPoint.parseBody "WIFI DISCONNECTED".toList = .ok ⟨false, false⟩ ∧
    JoinAccessPoint.parseBody "WIFI CONNECTED\r\nWIFI DISCONNECTED".toList = .ok ⟨false, false⟩ := by
  refine ⟨rfl, fun r => rfl, fun r => rfl, fun r => rfl, ?_, by decide, by decide, by decide⟩
  intro r line hd hc hg
  unfold joinStep
  rw [if_neg hd, if_neg hc, if_neg hg]

/-- Witness for C8: an unrecognized line (`"OK"`) leaves the fold state
unchanged. -/
theorem c8_join_access_point_witness :
    joinStep ⟨false, false⟩ "OK".toList = ⟨false, false⟩ :=
  (c8_join_access_point_fold []).2.2.2.2.1 ⟨false, false⟩ "OK".toList
    (by decide) (by decide) (by decide)

/-- C10.  The join-access-point encoder embeds the ssid and the
credential verbatim between double quotes with no escaping: for every
ssid of at most 32 characters and psk of at most 64 characters the
encoding succeeds and is exactly
`AT+CWJAP_CUR=` (or `_DEF=` when persisting) followed by the quoted raw
ssid, a quote-comma-quote separator, the quoted raw psk and crlf. -/
theorem c10_join_encoding_verbatim (ssid psk : List Char) (persist : Bool)
    (hs : ssid.length ≤ 32) (hp : psk.length ≤ 64) :
    JoinAccessPoint.as_bytes ssid psk persist =
      .ok ("AT+CWJAP_".toList ++ (if persist then "DEF".toList else "CUR".toList)
        ++ "=\"".toList ++ ssid ++ "\",\"".toList ++ psk ++ "\"\r\n".toList) := by
  unfold JoinAccessPoint.as_bytes checkCap
  rw [if_pos]
  have hper : (if persist then "DEF".toList else "CUR".toList).length = 3 := by
    cases persist <;> rfl
  simp only [List.length_append, hper]
  have h9 : "AT+CWJAP_".toList.length = 9 := rfl
  have h2 : "=\"".toList.length = 2 := rfl
  have h3 : "\",\"".toList.length = 3 := rfl
  have h3' : "\"\r\n".toList.length = 3 := rfl
  omega

/-- Witness for C10: an ssid containing a double quote, a comma and a
backslash and a psk containing a double quote are embedded verbatim, so
the quoted structure of the wire command no longer delimits the intended
fields. -/
theorem c10_join_encoding_witness :
    JoinAccessPoint.as_bytes "a\"b,c\\d".toList "p\"q".toList false =
      .ok ("AT+CWJAP_".toList ++ (if false then "DEF".toList else "CUR".toList)
        ++ "=\"".toList ++ "a\"b,c\\d".toList ++ "\",\"".toList
        ++ "p\"q".toList ++ "\"\r\n".toList) :=
  c10_join_encoding_verbatim "a\"b,c\\d".toList "p\"q".toList false
    (by decide) (by decide)

end Espresso

namespace Espresso

/-- A three-line firmware-version reply built from the three remainder
texts (crlf line endings, as produced by the device). -/
def firmwareResponse (v1 v2 v3 : List Char) : List Char :=
  (atVersionLit ++ v1) ++ '\r' :: '\n' ::
    ((sdkVersionLit ++ v2) ++ '\r' :: '\n' :: (compileTimeLit ++ v3))

/-- C9.  Firmware-version round behaviour: the encoder emits exactly
`AT+GMR\r\n`; the decoder accepts a reply of three positional lines with
the literal markers `AT version:`, `SDK version:` and `compile time:`,
returning the three remainders verbatim; a reply with fewer than three
lines, or whose first, second or third line lacks its expected marker, is
a parse error. -/
theorem c9_firmware_version_round (v1 v2 v3 : List Char)
    (hl1 : v1.length ≤ 32) (hl2 : v2.length ≤ 32) (hl3 : v3.length ≤ 32)
    (hn1 : '\n' ∉ v1) (hn2 : '\n' ∉ v2) (hn3 : '\n' ∉ v3)
    (h3r : v3.getLast? ≠ some '\r') :
    GetFirmwareVersion.as_bytes = "AT+GMR\r\n".toList ∧
    GetFirmwareVersion.parseBody (firmwareResponse v1 v2 v3) = .ok ⟨v1, v2, v3⟩ ∧
    (∀ s, (rustLines s).length < 3 → GetFirmwareVersion.parseBody s = .err .Parse) ∧
    (∀ s l1 ls, rustLines s = l1 :: ls → rustStartsWith l1 atVersionLit = false →
      GetFirmwareVersion.parseBody s = .err .Parse) ∧
    (∀ s l1 l2 ls, rustLines s = l1 :: l2 :: ls → rustStartsWith l2 sdkVersionLit = false →
      GetFirmwareVersion.parseBody s = .err .Parse) ∧
    (∀ s l1 l2 l3 ls, rustLines s = l1 :: l2 :: l3 :: ls →
      rustStartsWith l3 compileTimeLit = false →
      GetFirmwareVersion.parseBody s = .err .Parse) := by
  refine ⟨rfl, ?_, ?_, ?_, ?_, ?_⟩
  · have hna : '\n' ∉ atVersionLit ++ v1 := by
      intro hm
      rcases List.mem_append.mp hm with hm | hm
      · exact absurd hm (by decide)
      · exact hn1 hm
    have hnb : '\n' ∉ sdkVersionLit ++ v2 := by
      intro hm
      rcases List.mem_append.mp hm with hm | hm
      · exact absurd hm (by decide)
      · exact hn2 hm
    have hnc : '\n' ∉ compileTimeLit ++ v3 := by
      intro hm
      rcases List.mem_append.mp hm with hm | hm
      · exact absurd hm (by decide)
      · exact hn3 hm
    have hne3 : compileTimeLit ++ v3 ≠ [] := by
      intro h
      exact absurd (List.append_eq_nil.mp h).1 (by decide)
    have hr3 : (compileTimeLit ++ v3).getLast? ≠ some '\r' := by
      cases hv : v3 with
      | nil =>
        subst hv
        decide
      | cons a l =>
        rw [List.getLast?_append_of_ne_nil compileTimeLit (List.cons_ne_nil a l)]
        rw [← hv]
        exact h3r
    have hlines : rustLines (firmwareResponse v1 v2 v3)
        = [atVersionLit ++ v1, sdkVersionLit ++ v2, compileTimeLit ++ v3] := by
      unfold firmwareResponse
      rw [rustLines_crlf_cons _ _ hna, rustLines_crlf_cons _ _ hnb,
        rustLines_single _ hnc hne3 hr3]
    have e1 : (atVersionLit ++ v1).drop 11 = v1 := by
      rw [show (11 : Nat) = atVersionLit.length from rfl, List.drop_left]
    have e2 : (sdkVersionLit ++ v2).drop 12 = v2 := by
      rw [show (12 : Nat) = sdkVersionLit.length from rfl, List.drop_left]
    have e3 : (compileTimeLit ++ v3).drop 13 = v3 := by
      rw [show (13 : Nat) = compileTimeLit.length from rfl, List.drop_left]
    unfold GetFirmwareVersion.parseBody
    rw [hlines]
    simp [rustStartsWith_append_self, e1, e2, e3, heaplessStringFrom, hl1, hl2, hl3]
  · intro s h
    unfold GetFirmwareVersion.parseBody
    rcases hls : rustLines s with _ | ⟨l1, _ | ⟨l2, _ | ⟨l3, ls⟩⟩⟩
    · rfl
    · rfl
    · rfl
    · rw [hls] at h
      simp only [List.length_cons] at h
      omega
  · intro s l1 ls hls hsw
    unfold GetFirmwareVersion.parseBody
    rw [hls]
    rcases ls with _ | ⟨l2, _ | ⟨l3, rest⟩⟩
    · rfl
    · rfl
    · simp [hsw]
  · intro s l1 l2 ls hls hsw
    unfold GetFirmwareVersion.parseBody
    rw [hls]
    rcases ls with _ | ⟨l3, rest⟩
    · rfl
    · simp [hsw]
  · intro s l1 l2 l3 ls hls hsw
    unfold GetFirmwareVersion.parseBody
    rw [hls]
    simp [hsw]

/-- Witness for C9: the reference firmware reply decodes to its three
remainder texts verbatim. -/
theorem c9_firmware_version_witness :
    GetFirmwareVersion.parseBody
      (firmwareResponse "1.1.0.0(May 11 2016 18:09:56)".toList
        "1.5.4(baaeaebb)".toList "May 20 2016 15:08:19".toList)
      = .ok ⟨"1.1.0.0(May 11 2016 18:09:56)".toList,
          "1.5.4(baaeaebb)".toList, "May 20 2016 15:08:19".toList⟩ :=
  (c9_firmware_version_round "1.1.0.0(May 11 2016 18:09:56)".toList
    "1.5.4(baaeaebb)".toList "May 20 2016 15:08:19".toList
    (by decide) (by decide) (by decide) (by decide) (by decide) (by decide)
    (by decide)).2.1

end Espresso

namespace Espresso

/-- An IP report line of the `AT+CIFSR` reply: the marker followed by the
quoted address text. -/
def staipLine (a : List Char) : List Char := staipLit ++ '"' :: (a ++ ['"'])

/-- A MAC report line of the `AT+CIFSR` reply: the marker followed by the
quoted MAC text. -/
def stamacLine (m : List Char) : List Char := stamacLit ++ '"' :: (m ++ ['"'])

/-- Helper: a mismatch within the first part of a string is not repaired
by appending more characters. -/
lemma rustStartsWith_append_false (x p t : List Char)
    (h : rustStartsWith x p = false) (hlen : p.length ≤ x.length) :
    rustStartsWith (x ++ t) p = false := by
  induction p generalizing x with
  | nil => simp [rustStartsWith] at h
  | cons q qs ih =>
    cases x with
    | nil => simp at hlen
    | cons c cs =>
      simp only [rustStartsWith, Bool.and_eq_false_iff] at h
      rcases h with h | h
      · simp [rustStartsWith, h]
      · by_cases hqc : q = c
        · have := ih cs h (by simpa using hlen)
          simp [rustStartsWith, hqc, this]
        · simp [rustStartsWith, hqc]

/-- Helper: no-newline membership fact for a quoted report line. -/
lemma not_mem_quoted_line (lit x : List Char) (c : Char)
    (hc1 : c ∉ lit) (hc2 : ¬ c = '"') (hx : c ∉ x) :
    c ∉ lit ++ '"' :: (x ++ ['"']) := by
  intro hm'
  rcases List.mem_append.mp hm' with h1 | h1
  · exact hc1 h1
  · rcases List.mem_cons.mp h1 with h2 | h2
    · exact hc2 h2
    · rcases List.mem_append.mp h2 with h3 | h3
      · exact hx h3
      · rcases List.mem_cons.mp h3 with h4 | h4
        · exact hc2 h4
        · exact absurd h4 (List.not_mem_nil c)

/-- Helper: a quoted report line ends with the closing quote. -/
lemma stamacLine_getLast (m : List Char) : (stamacLine m).getLast? = some '"' := by
  rw [show stamacLine m = (stamacLit ++ '"' :: m) ++ ['"'] from by simp [stamacLine]]
  exact List.getLast?_concat _

/-- Helper: an IP report line ends with the closing quote. -/
lemma staipLine_getLast (a : List Char) : (staipLine a).getLast? = some '"' := by
  rw [show staipLine a = (staipLit ++ '"' :: a) ++ ['"'] from by simp [staipLine]]
  exact List.getLast?_concat _

/-- Helper: a MAC report line is nonempty. -/
lemma stamacLine_ne_nil (m : List Char) : stamacLine m ≠ [] := by
  intro h
  exact absurd (List.append_eq_nil.mp h).1 (by decide)

/-- Helper: an IP report line is nonempty. -/
lemma staipLine_ne_nil (a : List Char) : staipLine a ≠ [] := by
  intro h
  exact absurd (List.append_eq_nil.mp h).1 (by decide)

/-- Helper: how the address-scan loop treats an IP report line. -/
lemma localAddrLoop_staip (a : List Char) (rest : List (List Char))
    (mac : Option (List Char)) (ip : Option Ipv4Addr) :
    localAddrLoop (staipLine a :: rest) mac ip =
      if a = "0.0.0.0".toList then localAddrLoop rest mac none
      else
        match parseIpv4 a with
        | some addr => localAddrLoop rest mac (some addr)
        | none => .err .Parse := by
  have hsw : rustStartsWith (staipLine a) staipLit = true :=
    rustStartsWith_append_self staipLit _
  have hlen : (staipLine a).length = a.length + 15 := by
    have h13 : staipLit.length = 13 := rfl
    simp [staipLine, List.length_append, List.length_cons, h13]
    omega
  have hslice : rustSliceRange (staipLine a) 14 ((staipLine a).length - 1) = .ok a := by
    unfold rustSliceRange
    rw [if_pos]
    · have hd : (staipLine a).drop 14 = a ++ ['"'] := by
        rw [show staipLine a = (staipLit ++ ['"']) ++ (a ++ ['"']) from by simp [staipLine],
          show (14 : Nat) = (staipLit ++ ['"']).length from rfl, List.drop_left]
      rw [hlen, hd, show a.length + 15 - 1 - 14 = a.length from by omega, List.take_left]
    · rw [hlen]
      exact ⟨by omega, by omega⟩
  simp only [localAddrLoop, hsw, if_true, hslice]

/-- Helper: how the address-scan loop treats a MAC report line. -/
lemma localAddrLoop_stamac (m : List Char) (hm : m.length = 17)
    (rest : List (List Char)) (mac : Option (List Char)) (ip : Option Ipv4Addr) :
    localAddrLoop (stamacLine m :: rest) mac ip = localAddrLoop rest (some m) ip := by
  have hsw1 : rustStartsWith (stamacLine m) staipLit = false := by
    rw [show stamacLine m = (stamacLit ++ ['"']) ++ (m ++ ['"']) from by simp [stamacLine]]
    exact rustStartsWith_append_false _ _ _ (by decide) (by decide)
  have hsw2 : rustStartsWith (stamacLine m) stamacLit = true :=
    rustStartsWith_append_self stamacLit _
  have hlen : (stamacLine m).length = 33 := by
    have h14 : stamacLit.length = 14 := rfl
    simp [stamacLine, List.length_append, List.length_cons, h14, hm]
  have hslice : rustSliceRange (stamacLine m) 15 32 = .ok m := by
    unfold rustSliceRange
    rw [if_pos]
    · have hd : (stamacLine m).drop 15 = m ++ ['"'] := by
        rw [show stamacLine m = (stamacLit ++ ['"']) ++ (m ++ ['"']) from by simp [stamacLine],
          show (15 : Nat) = (stamacLit ++ ['"']).length from rfl, List.drop_left]
      rw [hd, show (32 : Nat) - 15 = 17 from rfl, ← hm, List.take_left]
    · rw [hlen]
      exact ⟨by omega, by omega⟩
  simp only [localAddrLoop, hsw1, hsw2, if_true, Bool.false_eq_true, if_false, hslice,
    heaplessStringFrom, hm]
  rfl

/-- Helper: the address-scan loop never reports a MAC when no line
carries the MAC marker. -/
lemma localAddrLoop_no_mac (lines : List (List Char))
    (h : ∀ l ∈ lines, rustStartsWith l stamacLit = false) :
    ∀ (ip : Option Ipv4Addr) (p : Option (List Char) × Option Ipv4Addr),
      localAddrLoop lines none ip = .ok p → p.1 = none := by
  induction lines with
  | nil =>
    intro ip p hp
    unfold localAddrLoop at hp
    cases hp
    rfl
  | cons line rest ih =>
    intro ip p hp
    have hline := h line (List.mem_cons_self line rest)
    have hrest : ∀ l ∈ rest, rustStartsWith l stamacLit = false :=
      fun l hl => h l (List.mem_cons_of_mem line hl)
    unfold localAddrLoop at hp
    by_cases hsw : rustStartsWith line staipLit = true
    · simp only [hsw, if_true] at hp
      rcases hsl : rustSliceRange line 14 (line.length - 1) with ipRaw | e
      · simp only [hsl] at hp
        by_cases hz : ipRaw = "0.0.0.0".toList
        · rw [if_pos hz] at hp
          exact ih hrest none p hp
        · rw [if_neg hz] at hp
          rcases hpi : parseIpv4 ipRaw with _ | addr
          · simp only [hpi] at hp
            cases hp
          · simp only [hpi] at hp
            exact ih hrest (some addr) p hp
      · simp only [hsl] at hp
        cases hp
      · simp only [hsl] at hp
        cases hp
    · simp only [hsw, if_false, hline, Bool.false_eq_true] at hp
      exact ih hrest ip p hp

end Espresso

namespace Espresso

/-- C7.  Address-query decoding: scanning the reply line by line in
either order, an IP line quoting the literal `0.0.0.0` yields an absent
address, an IP line quoting any other text that parses as an IPv4 address
yields that address, and a MAC line yields its seventeen-character text
verbatim; a reply without a MAC line never decodes successfully, while a
reply with only a MAC line succeeds with an absent address. -/
theorem c7_local_address_decoding (a m : List Char) (addr : Ipv4Addr)
    (hm : m.length = 17) (hna : '\n' ∉ a) (hnm : '\n' ∉ m) :
    (GetLocalAddress.parseBody
        (staipLine "0.0.0.0".toList ++ '\r' :: '\n' :: stamacLine m) = .ok ⟨none, m⟩) ∧
    (a ≠ "0.0.0.0".toList → parseIpv4 a = some addr →
      GetLocalAddress.parseBody
        (staipLine a ++ '\r' :: '\n' :: stamacLine m) = .ok ⟨some addr, m⟩) ∧
    (GetLocalAddress.parseBody
        (stamacLine m ++ '\r' :: '\n' :: staipLine "0.0.0.0".toList) = .ok ⟨none, m⟩) ∧
    (a ≠ "0.0.0.0".toList → parseIpv4 a = some addr →
      GetLocalAddress.parseBody
        (stamacLine m ++ '\r' :: '\n' :: staipLine a) = .ok ⟨some addr, m⟩) ∧
    (GetLocalAddress.parseBody (stamacLine m) = .ok ⟨none, m⟩) ∧
    (∀ s, (∀ l ∈ rustLines s, rustStartsWith l stamacLit = false) →
      ∀ la, GetLocalAddress.parseBody s ≠ .ok la) := by
  have hnm' : '\n' ∉ stamacLine m :=
    not_mem_quoted_line stamacLit m '\n' (by decide) (by decide) hnm
  have hna' : '\n' ∉ staipLine a :=
    not_mem_quoted_line staipLit a '\n' (by decide) (by decide) hna
  have hn0 : '\n' ∉ staipLine "0.0.0.0".toList :=
    not_mem_quoted_line staipLit _ '\n' (by decide) (by decide) (by decide)
  have hglm : (stamacLine m).getLast? ≠ some '\r' := by
    rw [stamacLine_getLast]
    decide
  have hgla : (staipLine a).getLast? ≠ some '\r' := by
    rw [staipLine_getLast]
    decide
  have hgl0 : (staipLine "0.0.0.0".toList).getLast? ≠ some '\r' := by
    rw [staipLine_getLast]
    decide
  refine ⟨?_, ?_, ?_, ?_, ?_, ?_⟩
  · have hlines : rustLines (staipLine "0.0.0.0".toList ++ '\r' :: '\n' :: stamacLine m)
        = [staipLine "0.0.0.0".toList, stamacLine m] := by
      rw [rustLines_crlf_cons _ _ hn0, rustLines_single _ hnm' (stamacLine_ne_nil m) hglm]
    unfold GetLocalAddress.parseBody
    rw [hlines, localAddrLoop_staip, if_pos rfl, localAddrLoop_stamac m hm]
    rfl
  · intro hz hpi
    have hlines : rustLines (staipLine a ++ '\r' :: '\n' :: stamacLine m)
        = [staipLine a, stamacLine m] := by
      rw [rustLines_crlf_cons _ _ hna', rustLines_single _ hnm' (stamacLine_ne_nil m) hglm]
    unfold GetLocalAddress.parseBody
    rw [hlines, localAddrLoop_staip, if_neg hz]
    simp only [hpi]
    rw [localAddrLoop_stamac m hm]
    rfl
  · have hlines : rustLines (stamacLine m ++ '\r' :: '\n' :: staipLine "0.0.0.0".toList)
        = [stamacLine m, staipLine "0.0.0.0".toList] := by
      rw [rustLines_crlf_cons _ _ hnm', rustLines_single _ hn0 (staipLine_ne_nil _) hgl0]
    unfold GetLocalAddress.parseBody
    rw [hlines, localAddrLoop_stamac m hm, localAddrLoop_staip, if_pos rfl]
    rfl
  · intro hz hpi
    have hlines : rustLines (stamacLine m ++ '\r' :: '\n' :: staipLine a)
        = [stamacLine m, staipLine a] := by
      rw [rustLines_crlf_cons _ _ hnm', rustLines_single _ hna' (staipLine_ne_nil a) hgla]
    unfold GetLocalAddress.parseBody
    rw [hlines, localAddrLoop_stamac m hm, localAddrLoop_staip, if_neg hz]
    simp only [hpi]
    rfl
  · have hlines : rustLines (stamacLine m) = [stamacLine m] :=
      rustLines_single _ hnm' (stamacLine_ne_nil m) hglm
    unfold GetLocalAddress.parseBody
    rw [hlines, localAddrLoop_stamac m hm]
    rfl
  · intro s hno la heq
    unfold GetLocalAddress.parseBody at heq
    rcases hl : localAddrLoop (rustLines s) none none with p | e
    · obtain ⟨mac, ip⟩ := p
      have hp1 : mac = none := localAddrLoop_no_mac (rustLines s) hno none (mac, ip) hl
      subst hp1
      simp only [hl] at heq
      cases heq
    · simp only [hl] at heq
      cases heq
    · simp only [hl] at heq
      cases heq

/-- Witness for C7: the reference reply with a real address decodes to
that address and the MAC text verbatim. -/
theorem c7_local_address_witness :
    GetLocalAddress.parseBody
      (staipLine "10.0.99.164".toList ++ '\r' :: '\n' ::
        stamacLine "dc:4f:22:7e:41:b4".toList)
      = .ok ⟨some ⟨10, 0, 99, 164⟩, "dc:4f:22:7e:41:b4".toList⟩ :=
  (c7_local_address_decoding "10.0.99.164".toList "dc:4f:22:7e:41:b4".toList
    ⟨10, 0, 99, 164⟩ (by decide) (by decide) (by decide)).2.1 (by decide) (by decide)

end Espresso
